import Mathlib

/-!
Verification development for the sun-visibility engine of the
When-Is-Sun-Home repository.

The TypeScript sources are shallowly embedded over exact rationals.
JavaScript floating point arithmetic is modelled by `ℚ` (with `Option ℚ`
where a value can be `NaN`), the JavaScript remainder operator `%` by
`jsMod` (truncated division, sign of the dividend), `Math.round` by
`jsRound` (half toward positive infinity) and `Math.max` by NaN-propagating
`jsMaxNum`.  Geometry primitives of the external turf library
(`destination`, `lineIntersect`, `distance`, `centroid`, `bearing`,
`transformTranslate`) are not part of the repository; where the embedded
code calls them, their per-building outputs relative to the fixed observer
ray appear as data of the embedded building records, and the translation
primitive of the shadow caster is an explicit function argument.
-/

/-- Truncation toward zero on rationals, the rounding used by the
JavaScript remainder operator. -/
def qtrunc (x : ℚ) : ℤ :=
  if 0 ≤ x then ⌊x⌋ else ⌈x⌉

/-- The JavaScript remainder operator `x % n`: remainder of truncated
division, carrying the sign of the dividend. -/
def jsMod (x n : ℚ) : ℚ :=
  x - n * (qtrunc (x / n) : ℚ)

/-- Mathematical modulus into `[0, n)` (floor division), used to state
specification sentences that say `mod`. -/
def mathMod (x n : ℚ) : ℚ :=
  x - n * (⌊x / n⌋ : ℚ)

/-- `Math.round`: round half toward positive infinity. -/
def jsRound (x : ℚ) : ℤ :=
  ⌊x + 1 / 2⌋

/-- A JavaScript number that may be `NaN`: `none` models `NaN` (or an
invalid-date timestamp), `some q` a finite value. -/
abbrev JsNum : Type := Option ℚ

/-- NaN-propagating subtraction on JavaScript numbers. -/
def jsSub (a b : JsNum) : JsNum :=
  match a, b with
  | some x, some y => some (x - y)
  | _, _ => none

/-- NaN-propagating division by a nonzero literal constant. -/
def jsDivC (a : JsNum) (c : ℚ) : JsNum :=
  match a with
  | some x => some (x / c)
  | none => none

/-- `Math.max` on JavScript numbers: returns `NaN` whenever an argument
is `NaN`. -/
def jsMaxNum (a b : JsNum) : JsNum :=
  match a, b with
  | some x, some y => some (max x y)
  | _, _ => none

/-!
SolarEphemeris: `src/src/hooks/useSunCalculations.ts`.

`sunCalcAzimuthToCompass` receives the SunCalc azimuth.  The source first
converts radians to degrees with `radToDeg`; the embedding takes that
degree value directly (the claims quantify over the raw azimuth in
degrees), then applies the JavaScript expression `(deg + 180) % 360`.
-/

/-- Embeds `sunCalcAzimuthToCompass` of `useSunCalculations.ts` with the
south-referenced azimuth already converted to degrees. -/
def sunCalcAzimuthToCompass (rawDeg : ℚ) : ℚ :=
  jsMod (rawDeg + 180) 360

/-- Embeds the `dayLength` computation of `getSunTimes` in
`useSunCalculations.ts`: `Math.max(0, (sunsetMs - sunriseMs) / 60000)`,
where the millisecond timestamps coming from `SunCalc.getTimes` are `NaN`
(`none`) on polar days and nights (`Invalid Date .getTime()`). -/
def getSunTimesDayLength (sunriseMs sunsetMs : JsNum) : JsNum :=
  jsMaxNum (some 0) (jsDivC (jsSub sunsetMs sunriseMs) 60000)

/-!
BuildingGeometryModel: height parsing of `src/unnamed/part_006`
(`src/lib/overpass.ts`).

`parseMetricHeight` applies JavaScript `parseFloat` to the raw OSM tag and
maps `NaN` to `null`; `parseBuildingLevels` applies `parseInt` and also
rejects non-positive results.  The embedding abstracts the string parsing
itself: the argument is the parse result, `none` standing for a missing
tag or an unparsable string (`NaN`).
-/

/-- Height provenance tag of `BuildingProperties.heightSource`. -/
inductive HeightSource
  | measured
  | estimated
  | unknown
deriving DecidableEq, Repr

/-- The `ParsedHeight` record of `overpass.ts`. -/
structure ParsedHeight where
  height : ℚ
  levels : ℤ
  heightSource : HeightSource
deriving DecidableEq, Repr

/-- Embeds `parseMetricHeight`: with the `parseFloat` result abstracted as
the argument, the function is the identity (`null`/`NaN` ↦ `none`). -/
def parseMetricHeight (raw : Option ℚ) : Option ℚ :=
  match raw with
  | none => none
  | some q => some q

/-- Embeds `parseBuildingLevels`: with the `parseInt` result abstracted as
the argument, non-positive values are rejected (`isNaN(parsed) ||
parsed <= 0 ? null : parsed`). -/
def parseBuildingLevels (raw : Option ℤ) : Option ℤ :=
  match raw with
  | none => none
  | some n => if n ≤ 0 then none else some n

/-- Embeds `resolveHeight` of `overpass.ts`: measured height wins when
positive (levels back-filled as `Math.ceil(measured / 3)` when absent),
else three meters per level, else the 3 m / 1 level default. -/
def resolveHeight (measured : Option ℚ) (levels : Option ℤ) : ParsedHeight :=
  match measured with
  | some m =>
    if 0 < m then
      { height := m, levels := levels.getD ⌈m / 3⌉, heightSource := HeightSource.measured }
    else
      match levels with
      | some l => { height := (l : ℚ) * 3, levels := l, heightSource := HeightSource.estimated }
      | none => { height := 3, levels := 1, heightSource := HeightSource.unknown }
  | none =>
    match levels with
    | some l => { height := (l : ℚ) * 3, levels := l, heightSource := HeightSource.estimated }
    | none => { height := 3, levels := 1, heightSource := HeightSource.unknown }

/-- Embeds `extractBuildingHeight`: resolve the parsed `height` and
`building:levels` tags. -/
def extractBuildingHeight (heightTag : Option ℚ) (levelsTag : Option ℤ) : ParsedHeight :=
  resolveHeight (parseMetricHeight heightTag) (parseBuildingLevels levelsTag)

/-!
LineOfSightBlockageEngine: `src/unnamed/part_009` (`src/lib/sunBlockage.ts`).

`computeBlockage` casts a 500 m ray from the pin toward the sun azimuth
and walks the bearing-filtered candidates in order.  The turf calls are
abstracted per building: `centroidBearing` is
`bearingToCompass(turf.bearing(pin, turf.centroid(b)))`, and `interDists`
lists, in meters, the distances from the pin to the points of
`turf.lineIntersect(rayLine, b)` (`none` models the call throwing; the
source multiplies `turf.distance` kilometers by 1000, the embedding
stores meters directly).  `Math.tan(altitudeRad)` is the `tanAlt`
argument, positive for altitudes in `(0, 90)`.
-/

/-- The `SunPosition` record: compass azimuth and altitude in degrees. -/
structure SunPosition where
  azimuth : ℚ
  altitude : ℚ
deriving DecidableEq, Repr

/-- A building feature as seen by one `computeBlockage` call: resolved
height plus the abstracted turf data relative to the observer ray. -/
structure Building where
  height : ℚ
  centroidBearing : ℚ
  interDists : Option (List ℚ)
deriving DecidableEq, Repr

/-- The `SunBlockageInfo` record of `types/sun.ts`; the optional fields
are absent (`none`) unless a blocking building is reported. -/
structure SunBlockageInfo where
  isBlocked : Bool
  blockingBuildingHeight : Option ℚ := none
  blockDistance : Option ℤ := none
deriving DecidableEq, Repr

/-- Embeds `angularDifference`: minimum rotation between two compass
bearings, `Math.abs(a - b) % 360` folded into `[0, 180]`. -/
def angularDifference (a b : ℚ) : ℚ :=
  let diff := jsMod |a - b| 360
  if 180 < diff then 360 - diff else diff

/-- Embeds `isSunInFieldOfView`: the sun azimuth is within half the field
of view of the pin direction. -/
def isSunInFieldOfView (sunAzimuth pinDirection fov : ℚ) : Bool :=
  decide (angularDifference sunAzimuth pinDirection ≤ fov / 2)

/-- The guard of the field-of-view branch of `computeBlockage`:
`pinDirection !== undefined && !isSunInFieldOfView(azimuth, pinDirection, pinFov)`. -/
def fovBlocked (sunAzimuth : ℚ) (pinDirection : Option ℚ) (pinFov : ℚ) : Bool :=
  match pinDirection with
  | some d => !(isSunInFieldOfView sunAzimuth d pinFov)
  | none => false

/-- Embeds `filterBuildingsBySunBearing`: keep buildings whose centroid
bearing from the pin is within `tolerance` (default 30) of the sun
azimuth. -/
def filterBuildingsBySunBearing (buildings : List Building) (sunAzimuth tolerance : ℚ) :
    List Building :=
  buildings.filter (fun b => decide (angularDifference b.centroidBearing sunAzimuth ≤ tolerance))

/-- The nearest-intersection fold of `computeBlockage`: minimum of the
intersection distances that are at least one meter, `none` standing for
the untouched `Infinity`. -/
def nearestInterDist (ds : List ℚ) : Option ℚ :=
  ds.foldl
    (fun acc d =>
      match acc with
      | none => if 1 ≤ d then some d else none
      | some m => if 1 ≤ d ∧ d < m then some d else some m)
    none

/-- Nearest admissible ray intersection of one building: `none` when the
intersection call threw or no point is at least one meter away. -/
def nearestOf (b : Building) : Option ℚ :=
  b.interDists.bind nearestInterDist

/-- The candidate loop of `computeBlockage`: skip non-positive heights,
thrown or empty intersections and buildings with no admissible point;
return blocked with height and rounded distance at the first candidate
whose height exceeds the sun-ray height at its nearest intersection. -/
def blockScan (userElevation tanAlt : ℚ) : List Building → SunBlockageInfo
  | [] => { isBlocked := false }
  | b :: rest =>
    if b.height ≤ 0 then blockScan userElevation tanAlt rest
    else
      match b.interDists with
      | none => blockScan userElevation tanAlt rest
      | some ds =>
        if ds.isEmpty then blockScan userElevation tanAlt rest
        else
          match nearestInterDist ds with
          | none => blockScan userElevation tanAlt rest
          | some d =>
            if userElevation + d * tanAlt < b.height then
              { isBlocked := true
                blockingBuildingHeight := some b.height
                blockDistance := some (jsRound d) }
            else blockScan userElevation tanAlt rest

/-- Embeds `computeBlockage`: below-horizon short-circuit, field-of-view
branch, then the candidate scan over the bearing-filtered buildings with
the default tolerance 30. -/
def computeBlockage (sun : SunPosition) (buildings : List Building)
    (userElevation tanAlt : ℚ) (pinDirection : Option ℚ) (pinFov : ℚ) : SunBlockageInfo :=
  if sun.altitude ≤ 0 then { isBlocked := false }
  else if fovBlocked sun.azimuth pinDirection pinFov then { isBlocked := true }
  else blockScan userElevation tanAlt (filterBuildingsBySunBearing buildings sun.azimuth 30)

/-- Reference variant written from the specification words for the
refinement comparison: identical to `computeBlockage` except that the
candidate scan visits every building of the set, with no bearing
prefilter. -/
def computeBlockageUnfiltered (sun : SunPosition) (buildings : List Building)
    (userElevation tanAlt : ℚ) (pinDirection : Option ℚ) (pinFov : ℚ) : SunBlockageInfo :=
  if sun.altitude ≤ 0 then { isBlocked := false }
  else if fovBlocked sun.azimuth pinDirection pinFov then { isBlocked := true }
  else blockScan userElevation tanAlt buildings

/-- A candidate building occludes the ray: positive height, an admissible
nearest intersection, and height above the sun-ray height there. -/
def occludesB (userElevation tanAlt : ℚ) (b : Building) : Bool :=
  decide (0 < b.height) &&
    match nearestOf b with
    | none => false
    | some d => decide (userElevation + d * tanAlt < b.height)

/-!
SunWindowAggregator: `computeSunWindows` of `src/unnamed/part_009`.
Timestamps are milliseconds since the epoch, modelled as `ℤ`.
-/

/-- The `BlockagePoint` record. -/
structure BlockagePoint where
  time : ℤ
  azimuth : ℚ
  altitude : ℚ
  blocked : Bool
deriving DecidableEq, Repr

/-- The `SunWindow` record; `endTime` renders the `end` field of the
source (a Lean keyword). -/
structure SunWindow where
  start : ℤ
  endTime : ℤ
deriving DecidableEq, Repr

/-- The scan loop of `computeSunWindows` with the open-window start as
explicit state: an unblocked point opens a window when none is open, a
blocked point closes the open window at its own time, and a window still
open at the end closes at the time of the last point of the whole input
(passed in as `lastTime`). -/
def windowsLoop (lastTime : ℤ) : List BlockagePoint → Option ℤ → List SunWindow
  | [], none => []
  | [], some s => [{ start := s, endTime := lastTime }]
  | p :: rest, none =>
    if p.blocked then windowsLoop lastTime rest none
    else windowsLoop lastTime rest (some p.time)
  | p :: rest, some s =>
    if p.blocked then { start := s, endTime := p.time } :: windowsLoop lastTime rest none
    else windowsLoop lastTime rest (some s)

/-- Embeds `computeSunWindows`: group consecutive unblocked points into
windows, closing a trailing open window at the last point of the input. -/
def computeSunWindows (pts : List BlockagePoint) : List SunWindow :=
  match pts.getLast? with
  | none => []
  | some l => windowsLoop l.time pts none

/-!
ShadowCaster: `src/src/lib/shadows.ts`.

`turf.transformTranslate` is external; the embedding passes it in as the
`translate` argument, mapping a footprint ring, a distance in kilometers
and a bearing to the translated ring, `none` modelling a throw.
`Math.tan(altitudeRad)` is again the `tanAlt` argument.
-/

/-- A building as seen by `computeShadows`: id, resolved height and the
footprint ring (opaque to the shadow logic). -/
structure ShadowBuilding where
  id : ℤ
  height : ℚ
  ring : List (ℚ × ℚ)
deriving DecidableEq, Repr

/-- One shadow feature of the result collection: the properties recorded
by the source plus the translated geometry. -/
structure ShadowFeature where
  buildingId : ℤ
  shadowLength : ℚ
  geometry : List (ℚ × ℚ)
deriving DecidableEq, Repr

/-- The building loop of `computeShadows`: skip non-positive heights,
out-of-range shadow lengths and failed translations; otherwise emit the
translated footprint with the building id and shadow length. -/
def shadowLoop (translate : List (ℚ × ℚ) → ℚ → ℚ → Option (List (ℚ × ℚ)))
    (sunAzimuth tanAlt : ℚ) : List ShadowBuilding → List ShadowFeature
  | [] => []
  | b :: rest =>
    if b.height ≤ 0 then shadowLoop translate sunAzimuth tanAlt rest
    else
      let shadowLength := b.height / tanAlt
      if shadowLength ≤ 0 ∨ 2000 < shadowLength then shadowLoop translate sunAzimuth tanAlt rest
      else
        let shadowBearing := jsMod (sunAzimuth + 180) 360
        match translate b.ring (shadowLength / 1000) shadowBearing with
        | some g =>
          { buildingId := b.id, shadowLength := shadowLength, geometry := g } ::
            shadowLoop translate sunAzimuth tanAlt rest
        | none => shadowLoop translate sunAzimuth tanAlt rest

/-- Embeds `computeShadows`: empty below the horizon, otherwise the
building loop. -/
def computeShadows (translate : List (ℚ × ℚ) → ℚ → ℚ → Option (List (ℚ × ℚ)))
    (buildings : List ShadowBuilding) (sunAzimuth sunAltitude tanAlt : ℚ) : List ShadowFeature :=
  if sunAltitude ≤ 0 then []
  else shadowLoop translate sunAzimuth tanAlt buildings

/-!
Sun visibility state machine: `src/unnamed/part_000` (`src/types/sun.ts`).
`SunData` also carries `times` and `arc` in the source; only `position`
is read by the embedded code, so only it is modelled.
-/

/-- The tri-state `SunVisibility`. -/
inductive SunVisibility
  | visible
  | blocked
  | below
deriving DecidableEq, Repr

/-- The `SunData` record restricted to the field the visibility logic
reads. -/
structure SunData where
  position : SunPosition
deriving DecidableEq, Repr

/-- Embeds `deriveSunVisibility`: below when there is no sun data or the
sun is at or under the horizon, blocked when the (optional) blockage says
so, visible otherwise. -/
def deriveSunVisibility : Option SunData → Option SunBlockageInfo → SunVisibility
  | none, _ => SunVisibility.below
  | some sd, sb =>
    if sd.position.altitude ≤ 0 then SunVisibility.below
    else if (sb.map SunBlockageInfo.isBlocked).getD false then SunVisibility.blocked
    else SunVisibility.visible

/-!
General lemmas about the JavaScript remainder on nonnegative dividends.
-/

theorem jsMod_eq_mathMod_of_nonneg (x n : ℚ) (hx : 0 ≤ x) (hn : 0 < n) :
    jsMod x n = mathMod x n := by
  unfold jsMod mathMod qtrunc
  rw [if_pos (div_nonneg hx hn.le)]

theorem mathMod_nonneg (x n : ℚ) (hn : 0 < n) : 0 ≤ mathMod x n := by
  unfold mathMod
  have h1 : (⌊x / n⌋ : ℚ) ≤ x / n := Int.floor_le _
  have h2 : n * (⌊x / n⌋ : ℚ) ≤ n * (x / n) := by
    exact mul_le_mul_of_nonneg_left h1 hn.le
  have h3 : n * (x / n) = x := by
    field_simp
  linarith

theorem mathMod_lt (x n : ℚ) (hn : 0 < n) : mathMod x n < n := by
  unfold mathMod
  have h1 : x / n < (⌊x / n⌋ : ℚ) + 1 := Int.lt_floor_add_one _
  have h2 : n * (x / n) < n * ((⌊x / n⌋ : ℚ) + 1) := by
    exact mul_lt_mul_of_pos_left h1 hn
  have h3 : n * (x / n) = x := by
    field_simp
  nlinarith

/-- C6: for every south-referenced raw azimuth in degrees in the range
(-180, 180], the exposed compass azimuth of `sunCalcAzimuthToCompass`
equals `(raw + 180) mod 360` (mathematical modulus) and lies in
`[0, 360)`. -/
theorem c6_azimuth_normalization (raw : ℚ) (h1 : -180 < raw) (h2 : raw ≤ 180) :
    sunCalcAzimuthToCompass raw = mathMod (raw + 180) 360 ∧
    0 ≤ sunCalcAzimuthToCompass raw ∧ sunCalcAzimuthToCompass raw < 360 := by
  have hx : (0 : ℚ) ≤ raw + 180 := by linarith
  have hn : (0 : ℚ) < 360 := by norm_num
  have he : sunCalcAzimuthToCompass raw = mathMod (raw + 180) 360 :=
    jsMod_eq_mathMod_of_nonneg _ _ hx hn
  refine ⟨he, ?_, ?_⟩
  · rw [he]; exact mathMod_nonneg _ _ hn
  · rw [he]; exact mathMod_lt _ _ hn

/-- Witness for C6 at the raw azimuth 0 (sun due south): the compass
azimuth is 180 and lies in range. -/
theorem c6_azimuth_normalization_witness :
    sunCalcAzimuthToCompass 0 = mathMod (0 + 180) 360 ∧
    0 ≤ sunCalcAzimuthToCompass 0 ∧ sunCalcAzimuthToCompass 0 < 360 :=
  c6_azimuth_normalization 0 (by norm_num) (by norm_num)

/-- C4 counterexample: when both sunrise and sunset timestamps are `NaN`
(polar day or night), `dayLength` is `NaN`, not a non-negative number, so
the claim that `dayLength` is always non-negative including the undefined
regime fails. -/
theorem c4_daylength_counterexample :
    getSunTimesDayLength none none = none ∧
    ¬ ∃ q, getSunTimesDayLength none none = some q ∧ 0 ≤ q := by
  refine ⟨rfl, ?_⟩
  rintro ⟨q, hq, -⟩
  exact Option.noConfusion hq

/-- C4 amended: when sunrise and sunset are both defined, `dayLength`
equals `max 0 ((sunset - sunrise) in minutes)` and is non-negative; when
either timestamp is `NaN` (polar day or night), `dayLength` is `NaN`
rather than a clamped non-negative number. -/
theorem c4_daylength_amended (r s : ℚ) :
    (∃ q, getSunTimesDayLength (some r) (some s) = some q ∧
      q = max 0 ((s - r) / 60000) ∧ 0 ≤ q) ∧
    getSunTimesDayLength none (some s) = none ∧
    getSunTimesDayLength (some r) none = none ∧
    getSunTimesDayLength none none = none := by
  exact ⟨⟨max 0 ((s - r) / 60000), rfl, rfl, le_max_left _ _⟩, rfl, rfl, rfl⟩

/-- C5: height resolution applies its three stages in strict order — a
positive measured height is used verbatim with source `measured` and
back-filled levels `⌈height/3⌉` when no level hint exists, else a parsed
positive level count gives `levels * 3` with source `estimated`, else the
3 m / 1 level default with source `unknown` — and every result has
positive height and at least one level. -/
theorem c5_height_resolution (heightTag : Option ℚ) (levelsTag : Option ℤ) :
    (∀ m, parseMetricHeight heightTag = some m → 0 < m →
      (extractBuildingHeight heightTag levelsTag).height = m ∧
      (extractBuildingHeight heightTag levelsTag).heightSource = HeightSource.measured ∧
      (parseBuildingLevels levelsTag = none →
        (extractBuildingHeight heightTag levelsTag).levels = ⌈m / 3⌉) ∧
      (∀ l, parseBuildingLevels levelsTag = some l →
        (extractBuildingHeight heightTag levelsTag).levels = l)) ∧
    ((∀ m, parseMetricHeight heightTag = some m → m ≤ 0) →
      (∀ l, parseBuildingLevels levelsTag = some l →
        extractBuildingHeight heightTag levelsTag =
          { height := (l : ℚ) * 3, levels := l, heightSource := HeightSource.estimated }) ∧
      (parseBuildingLevels levelsTag = none →
        extractBuildingHeight heightTag levelsTag =
          { height := 3, levels := 1, heightSource := HeightSource.unknown })) ∧
    0 < (extractBuildingHeight heightTag levelsTag).height ∧
    1 ≤ (extractBuildingHeight heightTag levelsTag).levels := by
  rcases heightTag with _ | m
  · rcases levelsTag with _ | n
    · refine ⟨?_, ?_, ?_, ?_⟩
      · intro m hm; exact absurd hm (by simp [parseMetricHeight])
      · intro _
        exact ⟨fun l hl => absurd hl (by simp [parseBuildingLevels]), fun _ => rfl⟩
      · norm_num [extractBuildingHeight, resolveHeight, parseMetricHeight, parseBuildingLevels]
      · norm_num [extractBuildingHeight, resolveHeight, parseMetricHeight, parseBuildingLevels]
    · by_cases hn : n ≤ 0
      · refine ⟨?_, ?_, ?_, ?_⟩
        · intro m hm; exact absurd hm (by simp [parseMetricHeight])
        · intro _
          refine ⟨fun l hl => ?_, fun _ => ?_⟩
          · exact absurd hl (by simp [parseBuildingLevels, hn])
          · simp [extractBuildingHeight, resolveHeight, parseMetricHeight,
              parseBuildingLevels, hn]
        · norm_num [extractBuildingHeight, resolveHeight, parseMetricHeight,
            parseBuildingLevels, hn]
        · norm_num [extractBuildingHeight, resolveHeight, parseMetricHeight,
            parseBuildingLevels, hn]
      · have hn1 : 1 ≤ n := by omega
        refine ⟨?_, ?_, ?_, ?_⟩
        · intro m hm; exact absurd hm (by simp [parseMetricHeight])
        · intro _
          refine ⟨fun l hl => ?_, fun hnone => ?_⟩
          · have : l = n := by
              simpa [parseBuildingLevels, hn] using hl.symm
            subst this
            simp [extractBuildingHeight, resolveHeight, parseMetricHeight,
              parseBuildingLevels, hn]
          · exact absurd hnone (by simp [parseBuildingLevels, hn])
        · have : (1 : ℚ) ≤ (n : ℚ) := by exact_mod_cast hn1
          simp only [extractBuildingHeight, resolveHeight, parseMetricHeight,
            parseBuildingLevels, if_neg hn]
          nlinarith
        · simpa [extractBuildingHeight, resolveHeight, parseMetricHeight,
            parseBuildingLevels, hn] using hn1
  · by_cases hm : 0 < m
    · have hceil : 1 ≤ ⌈m / 3⌉ := by
        have : (0 : ℚ) < m / 3 := by positivity
        have := Int.ceil_pos.mpr this
        omega
      rcases levelsTag with _ | n
      · refine ⟨?_, ?_, ?_, ?_⟩
        · intro m2 hm2 _
          have : m2 = m := by simpa [parseMetricHeight] using hm2.symm
          subst this
          refine ⟨?_, ?_, fun _ => ?_, fun l hl => absurd hl (by simp [parseBuildingLevels])⟩
          · simp [extractBuildingHeight, resolveHeight, parseMetricHeight,
              parseBuildingLevels, hm]
          · simp [extractBuildingHeight, resolveHeight, parseMetricHeight,
              parseBuildingLevels, hm]
          · simp [extractBuildingHeight, resolveHeight, parseMetricHeight,
              parseBuildingLevels, hm]
        · intro hno
          exact absurd (hno m rfl) (not_le.mpr hm)
        · simpa [extractBuildingHeight, resolveHeight, parseMetricHeight,
            parseBuildingLevels, hm] using hm
        · simpa [extractBuildingHeight, resolveHeight, parseMetricHeight,
            parseBuildingLevels, hm] using hceil
      · by_cases hn : n ≤ 0
        · refine ⟨?_, ?_, ?_, ?_⟩
          · intro m2 hm2 _
            have : m2 = m := by simpa [parseMetricHeight] using hm2.symm
            subst this
            refine ⟨?_, ?_, fun _ => ?_, fun l hl => absurd hl (by simp [parseBuildingLevels, hn])⟩
            · simp [extractBuildingHeight, resolveHeight, parseMetricHeight,
                parseBuildingLevels, hm, hn]
            · simp [extractBuildingHeight, resolveHeight, parseMetricHeight,
                parseBuildingLevels, hm, hn]
            · simp [extractBuildingHeight, resolveHeight, parseMetricHeight,
                parseBuildingLevels, hm, hn]
          · intro hno
            exact absurd (hno m rfl) (not_le.mpr hm)
          · simpa [extractBuildingHeight, resolveHeight, parseMetricHeight,
              parseBuildingLevels, hm, hn] using hm
          · simpa [extractBuildingHeight, resolveHeight, parseMetricHeight,
              parseBuildingLevels, hm, hn] using hceil
        · have hn1 : 1 ≤ n := by omega
          refine ⟨?_, ?_, ?_, ?_⟩
          · intro m2 hm2 _
            have : m2 = m := by simpa [parseMetricHeight] using hm2.symm
            subst this
            refine ⟨?_, ?_, fun hnone => absurd hnone (by simp [parseBuildingLevels, hn]),
              fun l hl => ?_⟩
            · simp [extractBuildingHeight, resolveHeight, parseMetricHeight,
                parseBuildingLevels, hm, hn]
            · simp [extractBuildingHeight, resolveHeight, parseMetricHeight,
                parseBuildingLevels, hm, hn]
            · have : l = n := by simpa [parseBuildingLevels, hn] using hl.symm
              subst this
              simp [extractBuildingHeight, resolveHeight, parseMetricHeight,
                parseBuildingLevels, hm, hn]
          · intro hno
            exact absurd (hno m rfl) (not_le.mpr hm)
          · simpa [extractBuildingHeight, resolveHeight, parseMetricHeight,
              parseBuildingLevels, hm, hn] using hm
          · simpa [extractBuildingHeight, resolveHeight, parseMetricHeight,
              parseBuildingLevels, hm, hn] using hn1
    · have hm' : m ≤ 0 := not_lt.mp hm
      rcases levelsTag with _ | n
      · refine ⟨?_, ?_, ?_, ?_⟩
        · intro m2 hm2 hpos
          have : m2 = m := by simpa [parseMetricHeight] using hm2.symm
          subst this
          exact absurd hpos (not_lt.mpr hm')
        · intro _
          refine ⟨fun l hl => absurd hl (by simp [parseBuildingLevels]), fun _ => ?_⟩
          simp [extractBuildingHeight, resolveHeight, parseMetricHeight,
            parseBuildingLevels, hm]
        · norm_num [extractBuildingHeight, resolveHeight, parseMetricHeight,
            parseBuildingLevels, hm]
        · norm_num [extractBuildingHeight, resolveHeight, parseMetricHeight,
            parseBuildingLevels, hm]
      · by_cases hn : n ≤ 0
        · refine ⟨?_, ?_, ?_, ?_⟩
          · intro m2 hm2 hpos
            have : m2 = m := by simpa [parseMetricHeight] using hm2.symm
            subst this
            exact absurd hpos (not_lt.mpr hm')
          · intro _
            refine ⟨fun l hl => absurd hl (by simp [parseBuildingLevels, hn]), fun _ => ?_⟩
            simp [extractBuildingHeight, resolveHeight, parseMetricHeight,
              parseBuildingLevels, hm, hn]
          · norm_num [extractBuildingHeight, resolveHeight, parseMetricHeight,
              parseBuildingLevels, hm, hn]
          · norm_num [extractBuildingHeight, resolveHeight, parseMetricHeight,
              parseBuildingLevels, hm, hn]
        · have hn1 : 1 ≤ n := by omega
          refine ⟨?_, ?_, ?_, ?_⟩
          · intro m2 hm2 hpos
            have : m2 = m := by simpa [parseMetricHeight] using hm2.symm
            subst this
            exact absurd hpos (not_lt.mpr hm')
          · intro _
            refine ⟨fun l hl => ?_, fun hnone => absurd hnone (by simp [parseBuildingLevels, hn])⟩
            have : l = n := by simpa [parseBuildingLevels, hn] using hl.symm
            subst this
            simp [extractBuildingHeight, resolveHeight, parseMetricHeight,
              parseBuildingLevels, hm, hn]
          · have : (1 : ℚ) ≤ (n : ℚ) := by exact_mod_cast hn1
            simp only [extractBuildingHeight, resolveHeight, parseMetricHeight,
              parseBuildingLevels, if_neg hn, if_neg hm]
            nlinarith
          · simpa [extractBuildingHeight, resolveHeight, parseMetricHeight,
              parseBuildingLevels, hm, hn] using hn1

/-- Witness for C5 at a measured 10 m height with no level tag: height 10,
source `measured`, levels back-filled to `⌈10/3⌉`, and positivity. -/
theorem c5_height_resolution_witness :
    (extractBuildingHeight (some 10) none).height = 10 ∧
    (extractBuildingHeight (some 10) none).heightSource = HeightSource.measured ∧
    (extractBuildingHeight (some 10) none).levels = ⌈(10 : ℚ) / 3⌉ ∧
    0 < (extractBuildingHeight (some 10) none).height := by
  have h := c5_height_resolution (some 10) none
  have h1 := h.1 10 rfl (by norm_num)
  exact ⟨h1.1, h1.2.1, h1.2.2.1 rfl, h.2.2.1⟩

/-- C10: missing data is never an error for `deriveSunVisibility` — a
null `SunData` yields `below` for every blockage argument, and sun data
with positive altitude together with a null blockage argument yields
`visible`, never `blocked`. -/
theorem c10_missing_data_visibility :
    (∀ sb : Option SunBlockageInfo, deriveSunVisibility none sb = SunVisibility.below) ∧
    (∀ sd : SunData, 0 < sd.position.altitude →
      deriveSunVisibility (some sd) none = SunVisibility.visible) := by
  constructor
  · intro sb; rfl
  · intro sd h
    simp [deriveSunVisibility, not_le.mpr h]

/-- Witness for C10: both branches at concrete arguments. -/
theorem c10_missing_data_visibility_witness :
    deriveSunVisibility none none = SunVisibility.below ∧
    deriveSunVisibility (some ⟨⟨0, 10⟩⟩) none = SunVisibility.visible :=
  ⟨c10_missing_data_visibility.1 none,
   c10_missing_data_visibility.2 ⟨⟨0, 10⟩⟩ (by norm_num)⟩

/-- C8: with the sun at or below the horizon, `computeBlockage` returns
not-blocked regardless of geometry, observer elevation and facing
parameters, and the derived visibility for that state is `below`, never
`blocked`, for every blockage argument. -/
theorem c8_below_horizon_short_circuit (sun : SunPosition) (buildings : List Building)
    (userElevation tanAlt : ℚ) (pinDirection : Option ℚ) (pinFov : ℚ)
    (sb : Option SunBlockageInfo) (halt : sun.altitude ≤ 0) :
    computeBlockage sun buildings userElevation tanAlt pinDirection pinFov =
      { isBlocked := false } ∧
    deriveSunVisibility (some { position := sun }) sb = SunVisibility.below := by
  constructor
  · unfold computeBlockage
    rw [if_pos halt]
  · simp [deriveSunVisibility, halt]

/-- Witness for C8: a dense occluding building with the sun 5 degrees
under the horizon is still reported not blocked, and the visibility is
`below`. -/
theorem c8_below_horizon_short_circuit_witness :
    computeBlockage ⟨180, -5⟩ [⟨50, 180, some [10]⟩] 0 1 none 180 =
      { isBlocked := false } ∧
    deriveSunVisibility (some { position := ⟨180, -5⟩ })
      (some { isBlocked := true }) = SunVisibility.below :=
  c8_below_horizon_short_circuit ⟨180, -5⟩ [⟨50, 180, some [10]⟩] 0 1 none 180
    (some { isBlocked := true }) (by norm_num)

/-- C7: with the sun above the horizon and a facing direction supplied,
an angular difference between the sun azimuth and the facing direction
beyond half the field of view makes `computeBlockage` return blocked with
both the height and the distance absent, independent of the building
geometry; within half the field of view the facing check changes nothing
(the result is that of the call with no facing direction). -/
theorem c7_field_of_view (sun : SunPosition) (buildings : List Building)
    (userElevation tanAlt : ℚ) (dir fov : ℚ) (halt : 0 < sun.altitude) :
    (fov / 2 < angularDifference sun.azimuth dir →
      computeBlockage sun buildings userElevation tanAlt (some dir) fov =
        { isBlocked := true, blockingBuildingHeight := none, blockDistance := none }) ∧
    (angularDifference sun.azimuth dir ≤ fov / 2 →
      computeBlockage sun buildings userElevation tanAlt (some dir) fov =
        computeBlockage sun buildings userElevation tanAlt none fov) := by
  have hna : ¬ sun.altitude ≤ 0 := not_le.mpr halt
  constructor
  · intro hout
    unfold computeBlockage fovBlocked isSunInFieldOfView
    simp [hna, not_le.mpr hout]
  · intro hin
    unfold computeBlockage fovBlocked isSunInFieldOfView
    simp [hna, hin]

/-- Witness for C7: facing 120 degrees away from the sun with a 180
degree field of view is blocked with no height or distance; facing 10
degrees away is decided exactly as with no facing constraint. -/
theorem c7_field_of_view_witness :
    (computeBlockage ⟨0, 10⟩ [⟨50, 0, some [10]⟩] 0 1 (some 120) 180 =
      { isBlocked := true, blockingBuildingHeight := none, blockDistance := none }) ∧
    (computeBlockage ⟨0, 10⟩ [⟨50, 0, some [10]⟩] 0 1 (some 10) 180 =
      computeBlockage ⟨0, 10⟩ [⟨50, 0, some [10]⟩] 0 1 none 180) := by
  constructor
  · refine (c7_field_of_view ⟨0, 10⟩ [⟨50, 0, some [10]⟩] 0 1 120 180 (by norm_num)).1 ?_
    norm_num [angularDifference, jsMod, qtrunc]
  · refine (c7_field_of_view ⟨0, 10⟩ [⟨50, 0, some [10]⟩] 0 1 10 180 (by norm_num)).2 ?_
    norm_num [angularDifference, jsMod, qtrunc]

/-!
Structure of the candidate scan of `computeBlockage`.
-/

theorem blockScan_cons_not_occluding (userElevation tanAlt : ℚ) (b : Building)
    (rest : List Building) (hocc : occludesB userElevation tanAlt b = false) :
    blockScan userElevation tanAlt (b :: rest) = blockScan userElevation tanAlt rest := by
  by_cases hh : b.height ≤ 0
  · simp [blockScan, hh]
  · cases hd : b.interDists with
    | none => simp [blockScan, hh, hd]
    | some ds =>
      cases hemp : ds.isEmpty with
      | true => simp [blockScan, hh, hd, hemp]
      | false =>
        cases hn : nearestInterDist ds with
        | none => simp [blockScan, hh, hd, hemp, hn]
        | some d0 =>
          have hcond : ¬ userElevation + d0 * tanAlt < b.height := by
            simp [occludesB, nearestOf, hd, hn, not_le.mp hh] at hocc
            exact not_lt.mpr hocc
          simp [blockScan, hh, hd, hemp, hn, hcond]

theorem blockScan_cons_occluding (userElevation tanAlt : ℚ) (b : Building)
    (rest : List Building) (hocc : occludesB userElevation tanAlt b = true) :
    ∃ d0, nearestOf b = some d0 ∧
      blockScan userElevation tanAlt (b :: rest) =
        { isBlocked := true, blockingBuildingHeight := some b.height,
          blockDistance := some (jsRound d0) } := by
  cases hn : nearestOf b with
  | none => simp [occludesB, hn] at hocc
  | some d0 =>
    have hcc : 0 < b.height ∧ userElevation + d0 * tanAlt < b.height := by
      simpa [occludesB, hn, decide_eq_true_eq] using hocc
    cases hd : b.interDists with
    | none =>
      unfold nearestOf at hn
      rw [hd] at hn
      exact Option.noConfusion hn
    | some ds =>
      unfold nearestOf at hn
      rw [hd] at hn
      have hn2 : nearestInterDist ds = some d0 := hn
      cases ds with
      | nil => exact Option.noConfusion hn2
      | cons x xs =>
        refine ⟨d0, rfl, ?_⟩
        simp [blockScan, not_le.mpr hcc.1, hd, hn2, hcc.2]

theorem blockScan_isBlocked_iff (userElevation tanAlt : ℚ) (l : List Building) :
    (blockScan userElevation tanAlt l).isBlocked = true ↔
      ∃ b ∈ l, occludesB userElevation tanAlt b = true := by
  induction l with
  | nil => simp [blockScan]
  | cons b rest ih =>
    by_cases hocc : occludesB userElevation tanAlt b = true
    · obtain ⟨d0, -, hs⟩ := blockScan_cons_occluding userElevation tanAlt b rest hocc
      rw [hs]
      exact iff_of_true rfl ⟨b, List.mem_cons_self b rest, hocc⟩
    · have hocc' : occludesB userElevation tanAlt b = false := by
        simpa using hocc
      rw [blockScan_cons_not_occluding userElevation tanAlt b rest hocc', ih]
      constructor
      · rintro ⟨x, hx, hP⟩
        exact ⟨x, List.mem_cons_of_mem _ hx, hP⟩
      · rintro ⟨x, hx, hP⟩
        rcases List.mem_cons.mp hx with heq | hmem
        · subst heq; exact absurd hP hocc
        · exact ⟨x, hmem, hP⟩

theorem blockScan_first (userElevation tanAlt : ℚ) (l : List Building) (h : ℚ) (d : ℤ)
    (heq : blockScan userElevation tanAlt l =
      { isBlocked := true, blockingBuildingHeight := some h, blockDistance := some d }) :
    ∃ pre b post, l = pre ++ b :: post ∧
      occludesB userElevation tanAlt b = true ∧
      (∀ b2 ∈ pre, occludesB userElevation tanAlt b2 = false) ∧
      h = b.height ∧ ∃ d0, nearestOf b = some d0 ∧ d = jsRound d0 := by
  induction l with
  | nil => exact absurd heq (by simp [blockScan])
  | cons b rest ih =>
    by_cases hocc : occludesB userElevation tanAlt b = true
    · obtain ⟨d0, hn, hs⟩ := blockScan_cons_occluding userElevation tanAlt b rest hocc
      rw [hs] at heq
      have hfields := SunBlockageInfo.mk.injEq .. ▸ heq
      simp only [SunBlockageInfo.mk.injEq, Option.some.injEq, true_and] at hfields
      exact ⟨[], b, rest, rfl, hocc, by simp, hfields.1.symm, d0, hn, hfields.2.symm⟩
    · have hocc' : occludesB userElevation tanAlt b = false := by simpa using hocc
      rw [blockScan_cons_not_occluding userElevation tanAlt b rest hocc'] at heq
      obtain ⟨pre, bb, post, hsplit, hb, hpre, hh, hd⟩ := ih heq
      refine ⟨b :: pre, bb, post, by rw [hsplit]; rfl, hb, ?_, hh, hd⟩
      intro b2 hb2
      rcases List.mem_cons.mp hb2 with h2 | h2
      · subst h2; exact hocc'
      · exact hpre b2 h2

/-- C1 counterexample: two occluding candidates both pass the bearing
filter; the 40 m building intersects the ray at 10 m, strictly nearer
than the 50 m building at 100 m, yet the reported height/distance are
those of the 50 m building, which merely comes first in the input
collection — so the nearest ray intersection does not determine the
report. -/
theorem c1_counterexample :
    computeBlockage ⟨0, 1⟩ [⟨50, 0, some [100]⟩, ⟨40, 0, some [10]⟩] 0 (1 / 100) none 180 =
      { isBlocked := true, blockingBuildingHeight := some 50, blockDistance := some 100 } ∧
    occludesB 0 (1 / 100) ⟨40, 0, some [10]⟩ = true ∧
    nearestOf ⟨40, 0, some [10]⟩ = some 10 ∧
    nearestOf ⟨50, 0, some [100]⟩ = some 100 ∧
    (10 : ℚ) < 100 := by
  norm_num [computeBlockage, fovBlocked, filterBuildingsBySunBearing, angularDifference,
    jsMod, qtrunc, blockScan, nearestInterDist, nearestOf, occludesB, jsRound,
    List.filter_cons, decide_eq_true_eq]

/-- C1 amended: when `computeBlockage` reports blocked with a height and
a distance, those values belong to the first occluding candidate in the
iteration order of the bearing-filtered building list — its height, and
the rounding of its own nearest ray intersection at least 1 m from the
observer — with every earlier candidate non-occluding; the reported
building is not necessarily the one whose intersection is nearest along
the ray. -/
theorem c1_first_occluder_in_order (sun : SunPosition) (buildings : List Building)
    (userElevation tanAlt : ℚ) (pinDirection : Option ℚ) (pinFov : ℚ) (h : ℚ) (d : ℤ)
    (heq : computeBlockage sun buildings userElevation tanAlt pinDirection pinFov =
      { isBlocked := true, blockingBuildingHeight := some h, blockDistance := some d }) :
    ∃ pre b post,
      filterBuildingsBySunBearing buildings sun.azimuth 30 = pre ++ b :: post ∧
      occludesB userElevation tanAlt b = true ∧
      (∀ b2 ∈ pre, occludesB userElevation tanAlt b2 = false) ∧
      h = b.height ∧ ∃ d0, nearestOf b = some d0 ∧ d = jsRound d0 := by
  by_cases h0 : sun.altitude ≤ 0
  · rw [computeBlockage, if_pos h0] at heq
    exact absurd heq (by simp)
  · by_cases hf : fovBlocked sun.azimuth pinDirection pinFov = true
    · rw [computeBlockage, if_neg h0, if_pos hf] at heq
      exact absurd heq (by simp)
    · rw [computeBlockage, if_neg h0, if_neg hf] at heq
      exact blockScan_first userElevation tanAlt _ h d heq

/-- Witness for C1 (amended) at a single occluding building. -/
theorem c1_first_occluder_in_order_witness :
    ∃ pre b post,
      filterBuildingsBySunBearing [⟨50, 0, some [100]⟩] 0 30 = pre ++ b :: post ∧
      occludesB 0 (1 / 100) b = true ∧
      (∀ b2 ∈ pre, occludesB 0 (1 / 100) b2 = false) ∧
      (50 : ℚ) = b.height ∧ ∃ d0, nearestOf b = some d0 ∧ (100 : ℤ) = jsRound d0 :=
  c1_first_occluder_in_order ⟨0, 1⟩ [⟨50, 0, some [100]⟩] 0 (1 / 100) none 180 50 100
    (by
      norm_num [computeBlockage, fovBlocked, filterBuildingsBySunBearing, angularDifference,
        jsMod, qtrunc, blockScan, nearestInterDist, nearestOf, occludesB, jsRound,
        List.filter_cons, decide_eq_true_eq])

/-- C3 counterexample: a 50 m building crossing the sun ray 10 m from
the observer but whose centroid bears 80 degrees away from the sun
azimuth is dropped by the 30 degree bearing prefilter, so the filtered
verdict is not blocked while the exhaustive scan is blocked — the
prefilter is not verdict-preserving on every building set. -/
theorem c3_counterexample :
    (computeBlockage ⟨0, 1⟩ [⟨50, 80, some [10]⟩] 0 (1 / 100) none 180).isBlocked = false ∧
    (computeBlockageUnfiltered ⟨0, 1⟩ [⟨50, 80, some [10]⟩] 0 (1 / 100) none
      180).isBlocked = true := by
  norm_num [computeBlockage, computeBlockageUnfiltered, fovBlocked,
    filterBuildingsBySunBearing, angularDifference, jsMod, qtrunc, blockScan,
    nearestInterDist, nearestOf, jsRound, List.filter_cons, decide_eq_true_eq]

/-- C3 amended: the bearing prefilter preserves the blocked verdict
exactly when every occluding building of the set has centroid bearing
within the 30 degree tolerance of the sun azimuth; under that hypothesis
the verdict of `computeBlockage` equals the verdict of the exhaustive
scan without the prefilter. -/
theorem c3_prefilter_equivalence (sun : SunPosition) (buildings : List Building)
    (userElevation tanAlt : ℚ) (pinDirection : Option ℚ) (pinFov : ℚ)
    (hpass : ∀ b ∈ buildings, occludesB userElevation tanAlt b = true →
      angularDifference b.centroidBearing sun.azimuth ≤ 30) :
    (computeBlockage sun buildings userElevation tanAlt pinDirection pinFov).isBlocked =
      (computeBlockageUnfiltered sun buildings userElevation tanAlt pinDirection
        pinFov).isBlocked := by
  unfold computeBlockage computeBlockageUnfiltered
  by_cases h0 : sun.altitude ≤ 0
  · rw [if_pos h0, if_pos h0]
  · rw [if_neg h0, if_neg h0]
    by_cases hf : fovBlocked sun.azimuth pinDirection pinFov = true
    · rw [if_pos hf, if_pos hf]
    · rw [if_neg hf, if_neg hf]
      have hBool : ∀ (x y : Bool), (x = true ↔ y = true) → x = y := by decide
      apply hBool
      rw [blockScan_isBlocked_iff, blockScan_isBlocked_iff]
      constructor
      · rintro ⟨b, hb, hP⟩
        exact ⟨b, (List.mem_filter.mp hb).1, hP⟩
      · rintro ⟨b, hb, hP⟩
        refine ⟨b, List.mem_filter.mpr ⟨hb, ?_⟩, hP⟩
        exact decide_eq_true_eq.mpr (hpass b hb hP)

/-- Witness for C3 (amended): one occluding building aligned with the sun
azimuth, where the hypothesis holds and both verdicts agree. -/
theorem c3_prefilter_equivalence_witness :
    (computeBlockage ⟨0, 1⟩ [⟨50, 0, some [100]⟩] 0 (1 / 100) none 180).isBlocked =
      (computeBlockageUnfiltered ⟨0, 1⟩ [⟨50, 0, some [100]⟩] 0 (1 / 100) none
        180).isBlocked :=
  c3_prefilter_equivalence ⟨0, 1⟩ [⟨50, 0, some [100]⟩] 0 (1 / 100) none 180
    (by
      intro b hb hocc
      rcases List.mem_singleton.mp hb with rfl
      norm_num [angularDifference, jsMod, qtrunc])

/-!
Structure of the shadow caster loop.
-/

theorem mem_shadowLoop_iff (translate : List (ℚ × ℚ) → ℚ → ℚ → Option (List (ℚ × ℚ)))
    (sunAzimuth tanAlt : ℚ) (buildings : List ShadowBuilding) (r : ShadowFeature) :
    r ∈ shadowLoop translate sunAzimuth tanAlt buildings ↔
      ∃ b ∈ buildings, 0 < b.height ∧
        ¬(b.height / tanAlt ≤ 0 ∨ 2000 < b.height / tanAlt) ∧
        translate b.ring (b.height / tanAlt / 1000) (jsMod (sunAzimuth + 180) 360) =
          some r.geometry ∧
        r.buildingId = b.id ∧ r.shadowLength = b.height / tanAlt := by
  induction buildings with
  | nil => simp [shadowLoop]
  | cons b rest ih =>
    by_cases hh : b.height ≤ 0
    · have hstep : shadowLoop translate sunAzimuth tanAlt (b :: rest) =
          shadowLoop translate sunAzimuth tanAlt rest := by
        simp [shadowLoop, hh]
      rw [hstep, ih]
      constructor
      · rintro ⟨x, hx, hrest⟩
        exact ⟨x, List.mem_cons_of_mem _ hx, hrest⟩
      · rintro ⟨x, hx, h1, hrest⟩
        rcases List.mem_cons.mp hx with rfl | hx
        · exact absurd h1 (not_lt.mpr hh)
        · exact ⟨x, hx, h1, hrest⟩
    · by_cases hlen : b.height / tanAlt ≤ 0 ∨ 2000 < b.height / tanAlt
      · have hstep : shadowLoop translate sunAzimuth tanAlt (b :: rest) =
            shadowLoop translate sunAzimuth tanAlt rest := by
          simp [shadowLoop, hh, hlen]
        rw [hstep, ih]
        constructor
        · rintro ⟨x, hx, hrest⟩
          exact ⟨x, List.mem_cons_of_mem _ hx, hrest⟩
        · rintro ⟨x, hx, h1, h2, hrest⟩
          rcases List.mem_cons.mp hx with rfl | hx
          · exact absurd hlen h2
          · exact ⟨x, hx, h1, h2, hrest⟩
      · cases ht : translate b.ring (b.height / tanAlt / 1000) (jsMod (sunAzimuth + 180) 360) with
        | none =>
          have hstep : shadowLoop translate sunAzimuth tanAlt (b :: rest) =
              shadowLoop translate sunAzimuth tanAlt rest := by
            simp [shadowLoop, hh, hlen, ht]
          rw [hstep, ih]
          constructor
          · rintro ⟨x, hx, hrest⟩
            exact ⟨x, List.mem_cons_of_mem _ hx, hrest⟩
          · rintro ⟨x, hx, h1, h2, h3, hrest⟩
            rcases List.mem_cons.mp hx with rfl | hx
            · rw [ht] at h3
              exact Option.noConfusion h3
            · exact ⟨x, hx, h1, h2, h3, hrest⟩
        | some g =>
          have hstep : shadowLoop translate sunAzimuth tanAlt (b :: rest) =
              { buildingId := b.id, shadowLength := b.height / tanAlt, geometry := g } ::
                shadowLoop translate sunAzimuth tanAlt rest := by
            simp [shadowLoop, hh, hlen, ht]
          rw [hstep]
          constructor
          · intro hr
            rcases List.mem_cons.mp hr with rfl | hr
            · exact ⟨b, List.mem_cons_self _ _, not_le.mp hh, hlen, by rw [ht], rfl, rfl⟩
            · obtain ⟨x, hx, hrest⟩ := ih.mp hr
              exact ⟨x, List.mem_cons_of_mem _ hx, hrest⟩
          · rintro ⟨x, hx, h1, h2, h3, h4, h5⟩
            rcases List.mem_cons.mp hx with rfl | hx
            · rw [ht] at h3
              have hg : g = r.geometry := Option.some.inj h3
              apply List.mem_cons.mpr
              left
              cases r
              simp only [ShadowFeature.mk.injEq]
              exact ⟨h4, h5, hg.symm⟩
            · exact List.mem_cons_of_mem _ (ih.mpr ⟨x, hx, h1, h2, h3, h4, h5⟩)

/-- C9: the shadow caster returns empty when the sun is at or below the
horizon; above the horizon, its results are exactly the buildings of
positive height whose shadow length `height / tan(altitude)` is positive
and at most 2000 m and whose footprint translation along the reciprocal
bearing `(azimuth + 180) mod 360` succeeds, each result carrying the
building id, the shadow length and the translated ring — any building
failing a check (a failed translation included) is skipped without
aborting the batch. -/
theorem c9_shadow_caster (translate : List (ℚ × ℚ) → ℚ → ℚ → Option (List (ℚ × ℚ)))
    (buildings : List ShadowBuilding) (sunAzimuth sunAltitude tanAlt : ℚ) :
    (sunAltitude ≤ 0 →
      computeShadows translate buildings sunAzimuth sunAltitude tanAlt = []) ∧
    (0 < sunAltitude → ∀ r,
      r ∈ computeShadows translate buildings sunAzimuth sunAltitude tanAlt ↔
        ∃ b ∈ buildings, 0 < b.height ∧
          ¬(b.height / tanAlt ≤ 0 ∨ 2000 < b.height / tanAlt) ∧
          translate b.ring (b.height / tanAlt / 1000) (jsMod (sunAzimuth + 180) 360) =
            some r.geometry ∧
          r.buildingId = b.id ∧ r.shadowLength = b.height / tanAlt) := by
  constructor
  · intro h
    simp [computeShadows, h]
  · intro h r
    rw [computeShadows, if_neg (not_le.mpr h)]
    exact mem_shadowLoop_iff translate sunAzimuth tanAlt buildings r

/-- Witness for C9: identity-like translation, a 10 m building at
altitude 45 degrees below, and the below-horizon branch at altitude -5. -/
theorem c9_shadow_caster_witness :
    computeShadows (fun ring _ _ => some ring)
      [⟨7, 10, [(0, 0), (1, 0), (1, 1), (0, 0)]⟩] 0 (-5) 1 = [] ∧
    ({ buildingId := 7, shadowLength := 10, geometry := [(0, 0), (1, 0), (1, 1), (0, 0)] } :
        ShadowFeature) ∈
      computeShadows (fun ring _ _ => some ring)
        [⟨7, 10, [(0, 0), (1, 0), (1, 1), (0, 0)]⟩] 0 45 1 := by
  constructor
  · exact (c9_shadow_caster (fun ring _ _ => some ring)
      [⟨7, 10, [(0, 0), (1, 0), (1, 1), (0, 0)]⟩] 0 (-5) 1).1 (by norm_num)
  · refine ((c9_shadow_caster (fun ring _ _ => some ring)
      [⟨7, 10, [(0, 0), (1, 0), (1, 1), (0, 0)]⟩] 0 45 1).2 (by norm_num) _).mpr ?_
    refine ⟨⟨7, 10, [(0, 0), (1, 0), (1, 1), (0, 0)]⟩, List.mem_singleton.mpr rfl,
      by norm_num, by norm_num, rfl, rfl, by norm_num⟩

/-!
Structure of the window aggregation scan.
-/

theorem mem_dropLast_cons {α : Type} {x a : α} {l : List α}
    (hx : x ∈ (a :: l).dropLast) : (x = a ∧ l ≠ []) ∨ x ∈ l.dropLast := by
  cases l with
  | nil => simp at hx
  | cons b t =>
    rw [List.dropLast_cons₂] at hx
    rcases List.mem_cons.mp hx with rfl | hx
    · exact Or.inl ⟨rfl, by simp⟩
    · exact Or.inr hx

theorem mem_of_getLast?_some {α : Type} {l : List α} {a : α} (h : l.getLast? = some a) :
    a ∈ l := by
  obtain ⟨ys, rfl⟩ := List.getLast?_eq_some_iff.mp h
  exact List.mem_append_right ys (List.mem_singleton.mpr rfl)

theorem windowsLoop_start_mem (lastTime : ℤ) :
    ∀ (pts : List BlockagePoint) (st : Option ℤ) (w : SunWindow),
      w ∈ windowsLoop lastTime pts st →
      (∃ s, st = some s ∧ w.start = s) ∨
        ∃ p ∈ pts, p.blocked = false ∧ p.time = w.start := by
  intro pts
  induction pts with
  | nil =>
    intro st w hw
    cases st with
    | none => simp [windowsLoop] at hw
    | some s =>
      left
      refine ⟨s, rfl, ?_⟩
      have hww : w = { start := s, endTime := lastTime } := by
        simpa [windowsLoop] using hw
      rw [hww]
  | cons p rest ih =>
    intro st w hw
    cases st with
    | none =>
      by_cases hb : p.blocked = true
      · rw [show windowsLoop lastTime (p :: rest) none = windowsLoop lastTime rest none by
          simp [windowsLoop, hb]] at hw
        rcases ih none w hw with ⟨s, hs, _⟩ | ⟨q, hq, hqb, hqt⟩
        · exact Option.noConfusion hs
        · exact Or.inr ⟨q, List.mem_cons_of_mem _ hq, hqb, hqt⟩
      · have hb' : p.blocked = false := by simpa using hb
        rw [show windowsLoop lastTime (p :: rest) none =
            windowsLoop lastTime rest (some p.time) by simp [windowsLoop, hb']] at hw
        rcases ih (some p.time) w hw with ⟨s, hs, hws⟩ | ⟨q, hq, hqb, hqt⟩
        · exact Or.inr ⟨p, List.mem_cons_self _ _, hb',
            (Option.some.inj hs).trans hws.symm⟩
        · exact Or.inr ⟨q, List.mem_cons_of_mem _ hq, hqb, hqt⟩
    | some s =>
      by_cases hb : p.blocked = true
      · rw [show windowsLoop lastTime (p :: rest) (some s) =
            { start := s, endTime := p.time } :: windowsLoop lastTime rest none by
            simp [windowsLoop, hb]] at hw
        rcases List.mem_cons.mp hw with rfl | hw
        · exact Or.inl ⟨s, rfl, rfl⟩
        · rcases ih none w hw with ⟨s2, hs2, _⟩ | ⟨q, hq, hqb, hqt⟩
          · exact Option.noConfusion hs2
          · exact Or.inr ⟨q, List.mem_cons_of_mem _ hq, hqb, hqt⟩
      · have hb' : p.blocked = false := by simpa using hb
        rw [show windowsLoop lastTime (p :: rest) (some s) =
            windowsLoop lastTime rest (some s) by simp [windowsLoop, hb']] at hw
        rcases ih (some s) w hw with ⟨s2, hs2, hws⟩ | ⟨q, hq, hqb, hqt⟩
        · exact Or.inl ⟨s2, hs2, hws⟩
        · exact Or.inr ⟨q, List.mem_cons_of_mem _ hq, hqb, hqt⟩

theorem windowsLoop_endTime_mem (lastTime : ℤ) :
    ∀ (pts : List BlockagePoint) (st : Option ℤ) (w : SunWindow),
      w ∈ windowsLoop lastTime pts st →
      (∃ p ∈ pts, p.blocked = true ∧ p.time = w.endTime) ∨ w.endTime = lastTime := by
  intro pts
  induction pts with
  | nil =>
    intro st w hw
    cases st with
    | none => simp [windowsLoop] at hw
    | some s =>
      right
      have hww : w = { start := s, endTime := lastTime } := by
        simpa [windowsLoop] using hw
      rw [hww]
  | cons p rest ih =>
    intro st w hw
    cases st with
    | none =>
      by_cases hb : p.blocked = true
      · rw [show windowsLoop lastTime (p :: rest) none = windowsLoop lastTime rest none by
          simp [windowsLoop, hb]] at hw
        rcases ih none w hw with ⟨q, hq, hqb, hqt⟩ | h
        · exact Or.inl ⟨q, List.mem_cons_of_mem _ hq, hqb, hqt⟩
        · exact Or.inr h
      · have hb' : p.blocked = false := by simpa using hb
        rw [show windowsLoop lastTime (p :: rest) none =
            windowsLoop lastTime rest (some p.time) by simp [windowsLoop, hb']] at hw
        rcases ih (some p.time) w hw with ⟨q, hq, hqb, hqt⟩ | h
        · exact Or.inl ⟨q, List.mem_cons_of_mem _ hq, hqb, hqt⟩
        · exact Or.inr h
    | some s =>
      by_cases hb : p.blocked = true
      · rw [show windowsLoop lastTime (p :: rest) (some s) =
            { start := s, endTime := p.time } :: windowsLoop lastTime rest none by
            simp [windowsLoop, hb]] at hw
        rcases List.mem_cons.mp hw with rfl | hw
        · exact Or.inl ⟨p, List.mem_cons_self _ _, hb, rfl⟩
        · rcases ih none w hw with ⟨q, hq, hqb, hqt⟩ | h
          · exact Or.inl ⟨q, List.mem_cons_of_mem _ hq, hqb, hqt⟩
          · exact Or.inr h
      · have hb' : p.blocked = false := by simpa using hb
        rw [show windowsLoop lastTime (p :: rest) (some s) =
            windowsLoop lastTime rest (some s) by simp [windowsLoop, hb']] at hw
        rcases ih (some s) w hw with ⟨q, hq, hqb, hqt⟩ | h
        · exact Or.inl ⟨q, List.mem_cons_of_mem _ hq, hqb, hqt⟩
        · exact Or.inr h

theorem windowsLoop_some_head (lastTime : ℤ) :
    ∀ (pts : List BlockagePoint) (s : ℤ),
      ∃ w t, windowsLoop lastTime pts (some s) = w :: t ∧ w.start = s := by
  intro pts
  induction pts with
  | nil =>
    intro s
    exact ⟨{ start := s, endTime := lastTime }, [], rfl, rfl⟩
  | cons p rest ih =>
    intro s
    by_cases hb : p.blocked = true
    · exact ⟨{ start := s, endTime := p.time }, windowsLoop lastTime rest none,
        by simp [windowsLoop, hb], rfl⟩
    · have hb' : p.blocked = false := by simpa using hb
      obtain ⟨w, t, he, hs⟩ := ih s
      refine ⟨w, t, ?_, hs⟩
      rw [show windowsLoop lastTime (p :: rest) (some s) =
          windowsLoop lastTime rest (some s) by simp [windowsLoop, hb']]
      exact he

theorem windowsLoop_first_open (lastTime : ℤ) :
    ∀ (pts : List BlockagePoint),
      pts.Pairwise (fun p q => p.time < q.time) →
      ∀ w wrest, windowsLoop lastTime pts none = w :: wrest →
      ∀ p ∈ pts, p.time < w.start → p.blocked = true := by
  intro pts
  induction pts with
  | nil =>
    intro _ w wrest h
    exact absurd h (by simp [windowsLoop])
  | cons p rest ih =>
    intro hp w wrest h q hq hlt
    obtain ⟨hrel, hp2⟩ := List.pairwise_cons.mp hp
    by_cases hb : p.blocked = true
    · rw [show windowsLoop lastTime (p :: rest) none = windowsLoop lastTime rest none by
        simp [windowsLoop, hb]] at h
      rcases List.mem_cons.mp hq with rfl | hq
      · exact hb
      · exact ih hp2 w wrest h q hq hlt
    · have hb' : p.blocked = false := by simpa using hb
      rw [show windowsLoop lastTime (p :: rest) none =
          windowsLoop lastTime rest (some p.time) by simp [windowsLoop, hb']] at h
      obtain ⟨w0, t0, he, hs⟩ := windowsLoop_some_head lastTime rest p.time
      rw [he] at h
      injection h with h1 h2
      subst h1
      rw [hs] at hlt
      rcases List.mem_cons.mp hq with rfl | hq
      · exact absurd hlt (lt_irrefl _)
      · exact absurd hlt (not_lt.mpr (hrel q hq).le)

theorem windowsLoop_inside_unblocked (lastTime : ℤ) :
    ∀ (pts : List BlockagePoint) (st : Option ℤ),
      pts.Pairwise (fun p q => p.time < q.time) →
      (∀ s, st = some s → ∀ p ∈ pts, s < p.time) →
      ∀ w ∈ windowsLoop lastTime pts st, ∀ p ∈ pts,
        w.start < p.time → p.time < w.endTime → p.blocked = false := by
  intro pts
  induction pts with
  | nil =>
    intro st _ _ w _ p hp
    exact absurd hp (List.not_mem_nil p)
  | cons p rest ih =>
    intro st hp hst w hw q hq h1 h2
    obtain ⟨hrel, hp2⟩ := List.pairwise_cons.mp hp
    cases st with
    | none =>
      by_cases hb : p.blocked = true
      · rw [show windowsLoop lastTime (p :: rest) none = windowsLoop lastTime rest none by
          simp [windowsLoop, hb]] at hw
        rcases List.mem_cons.mp hq with rfl | hq
        · rcases windowsLoop_start_mem lastTime rest none w hw with ⟨s, hs, _⟩ | ⟨r, hr, -, hrt⟩
          · exact Option.noConfusion hs
          · exact absurd h1 (not_lt.mpr (hrt ▸ (hrel r hr).le))
        · exact ih none hp2 (fun s hs => Option.noConfusion hs) w hw q hq h1 h2
      · have hb' : p.blocked = false := by simpa using hb
        rw [show windowsLoop lastTime (p :: rest) none =
            windowsLoop lastTime rest (some p.time) by simp [windowsLoop, hb']] at hw
        rcases List.mem_cons.mp hq with rfl | hq
        · exact hb'
        · exact ih (some p.time) hp2
            (fun s hs q2 hq2 => (Option.some.inj hs) ▸ hrel q2 hq2) w hw q hq h1 h2
    | some s =>
      by_cases hb : p.blocked = true
      · rw [show windowsLoop lastTime (p :: rest) (some s) =
            { start := s, endTime := p.time } :: windowsLoop lastTime rest none by
            simp [windowsLoop, hb]] at hw
        rcases List.mem_cons.mp hw with hweq | hwtail
        · rcases List.mem_cons.mp hq with hqeq | hqtail
          · rw [hweq] at h2
            rw [hqeq] at h2
            exact absurd h2 (lt_irrefl _)
          · rw [hweq] at h2
            exact absurd h2 (not_lt.mpr (hrel q hqtail).le)
        · rcases List.mem_cons.mp hq with hqeq | hqtail
          · rcases windowsLoop_start_mem lastTime rest none w hwtail with
              ⟨s2, hs2, _⟩ | ⟨r, hr, -, hrt⟩
            · exact Option.noConfusion hs2
            · rw [hqeq] at h1
              exact absurd h1 (not_lt.mpr (hrt ▸ (hrel r hr).le))
          · exact ih none hp2 (fun s2 hs2 => Option.noConfusion hs2) w hwtail q hqtail h1 h2
      · have hb' : p.blocked = false := by simpa using hb
        rw [show windowsLoop lastTime (p :: rest) (some s) =
            windowsLoop lastTime rest (some s) by simp [windowsLoop, hb']] at hw
        rcases List.mem_cons.mp hq with rfl | hq
        · exact hb'
        · exact ih (some s) hp2
            (fun s2 hs2 q2 hq2 => hst s2 hs2 q2 (List.mem_cons_of_mem _ hq2)) w hw q hq h1 h2

theorem windowsLoop_bounds (lastTime : ℤ) :
    ∀ (pts : List BlockagePoint) (st : Option ℤ),
      pts.Pairwise (fun p q => p.time < q.time) →
      (∀ p ∈ pts, p.time ≤ lastTime) →
      (∀ s, st = some s → (∀ p ∈ pts, s < p.time) ∧ s ≤ lastTime) →
      (∀ w ∈ windowsLoop lastTime pts st, w.start ≤ w.endTime) ∧
      ∀ w ∈ (windowsLoop lastTime pts st).dropLast, w.start < w.endTime := by
  intro pts
  induction pts with
  | nil =>
    intro st hp hle hst
    cases st with
    | none => exact ⟨by simp [windowsLoop], by simp [windowsLoop]⟩
    | some s =>
      constructor
      · intro w hw
        have hww : w = { start := s, endTime := lastTime } := by
          simpa [windowsLoop] using hw
        rw [hww]
        exact (hst s rfl).2
      · intro w hw
        simp [windowsLoop] at hw
  | cons p rest ih =>
    intro st hp hle hst
    obtain ⟨hrel, hp2⟩ := List.pairwise_cons.mp hp
    have hle2 : ∀ q ∈ rest, q.time ≤ lastTime := fun q hq => hle q (List.mem_cons_of_mem _ hq)
    cases st with
    | none =>
      by_cases hb : p.blocked = true
      · rw [show windowsLoop lastTime (p :: rest) none = windowsLoop lastTime rest none by
          simp [windowsLoop, hb]]
        exact ih none hp2 hle2 (fun s hs => Option.noConfusion hs)
      · have hb' : p.blocked = false := by simpa using hb
        rw [show windowsLoop lastTime (p :: rest) none =
            windowsLoop lastTime rest (some p.time) by simp [windowsLoop, hb']]
        exact ih (some p.time) hp2 hle2
          (fun s hs => ⟨fun q hq => (Option.some.inj hs) ▸ hrel q hq,
            (Option.some.inj hs) ▸ hle p (List.mem_cons_self _ _)⟩)
    | some s =>
      by_cases hb : p.blocked = true
      · rw [show windowsLoop lastTime (p :: rest) (some s) =
            { start := s, endTime := p.time } :: windowsLoop lastTime rest none by
            simp [windowsLoop, hb]]
        have hsp : s < p.time := (hst s rfl).1 p (List.mem_cons_self _ _)
        have hihb := ih none hp2 hle2 (fun s2 hs2 => Option.noConfusion hs2)
        constructor
        · intro w hw
          rcases List.mem_cons.mp hw with rfl | hw
          · exact hsp.le
          · exact hihb.1 w hw
        · intro w hw
          rcases mem_dropLast_cons hw with ⟨rfl, -⟩ | hw
          · exact hsp
          · exact hihb.2 w hw
      · have hb' : p.blocked = false := by simpa using hb
        rw [show windowsLoop lastTime (p :: rest) (some s) =
            windowsLoop lastTime rest (some s) by simp [windowsLoop, hb']]
        exact ih (some s) hp2 hle2
          (fun s2 hs2 => ⟨fun q hq => (hst s2 hs2).1 q (List.mem_cons_of_mem _ hq),
            (hst s2 hs2).2⟩)

theorem pairwise_time_le_getLast :
    ∀ (pts : List BlockagePoint) (l : BlockagePoint),
      pts.Pairwise (fun p q => p.time < q.time) → pts.getLast? = some l →
      ∀ p ∈ pts, p.time ≤ l.time := by
  intro pts
  induction pts with
  | nil =>
    intro l _ h
    exact absurd h (by simp)
  | cons p rest ih =>
    intro l hp hl q hq
    obtain ⟨hrel, hp2⟩ := List.pairwise_cons.mp hp
    cases rest with
    | nil =>
      have hpl : p = l := by simpa using hl
      rcases List.mem_singleton.mp hq with rfl
      exact le_of_eq (congrArg BlockagePoint.time hpl)
    | cons r t =>
      rw [List.getLast?_cons_cons] at hl
      rcases List.mem_cons.mp hq with rfl | hq
      · exact (hrel l (mem_of_getLast?_some hl)).le
      · exact ih l hp2 hl q hq

/-- C2 counterexample: a single unblocked sample produces the zero-length
trailing window, and `computeSunWindows` returns it unfiltered — the
returned window has start equal to end, refuting the claim that the
aggregator filters zero-length trailing windows so that every returned
window satisfies start < end. -/
theorem c2_counterexample :
    computeSunWindows [{ time := 0, azimuth := 0, altitude := 10, blocked := false }] =
      [{ start := 0, endTime := 0 }] ∧
    ∃ w ∈ computeSunWindows [{ time := 0, azimuth := 0, altitude := 10, blocked := false }],
      ¬ w.start < w.endTime := by
  constructor
  · rfl
  · exact ⟨{ start := 0, endTime := 0 }, by simp [computeSunWindows, windowsLoop],
      by norm_num⟩

/-- C2 amended: over samples with strictly increasing timestamps, the
aggregator returns the empty sequence for an empty input, every window
opens at an unblocked sample (the first window at the first unblocked
sample — every earlier sample is blocked), every window closes at a
blocked sample or at the last sample of the scan, no blocked sample lies
strictly inside a window (so the closing sample is the first subsequent
blocked one), and start ≤ end for every window with start < end for all
but possibly the last — the zero-length trailing window is not filtered
out. -/
theorem c2_window_aggregation (pts : List BlockagePoint)
    (hp : pts.Pairwise (fun p q => p.time < q.time)) :
    (pts = [] → computeSunWindows pts = []) ∧
    (∀ w ∈ computeSunWindows pts, ∃ p ∈ pts, p.blocked = false ∧ p.time = w.start) ∧
    (∀ w wrest, computeSunWindows pts = w :: wrest →
      ∀ p ∈ pts, p.time < w.start → p.blocked = true) ∧
    (∀ w ∈ computeSunWindows pts,
      (∃ p ∈ pts, p.blocked = true ∧ p.time = w.endTime) ∨
        ∃ l, pts.getLast? = some l ∧ w.endTime = l.time) ∧
    (∀ w ∈ computeSunWindows pts, ∀ p ∈ pts,
      w.start < p.time → p.time < w.endTime → p.blocked = false) ∧
    (∀ w ∈ computeSunWindows pts, w.start ≤ w.endTime) ∧
    (∀ w ∈ (computeSunWindows pts).dropLast, w.start < w.endTime) := by
  cases hl : pts.getLast? with
  | none =>
    have hnil : pts = [] := List.getLast?_eq_none_iff.mp hl
    subst hnil
    refine ⟨fun _ => rfl, ?_, ?_, ?_, ?_, ?_, ?_⟩ <;>
      simp [computeSunWindows]
  | some l =>
    have hle : ∀ p ∈ pts, p.time ≤ l.time := pairwise_time_le_getLast pts l hp hl
    have hcw : computeSunWindows pts = windowsLoop l.time pts none := by
      rw [computeSunWindows, hl]
    have hne : pts ≠ [] := by
      intro h
      subst h
      exact Option.noConfusion hl
    refine ⟨fun h => absurd h hne, ?_, ?_, ?_, ?_, ?_, ?_⟩
    · intro w hw
      rw [hcw] at hw
      rcases windowsLoop_start_mem l.time pts none w hw with ⟨s, hs, _⟩ | h
      · exact Option.noConfusion hs
      · exact h
    · intro w wrest h
      rw [hcw] at h
      exact windowsLoop_first_open l.time pts hp w wrest h
    · intro w hw
      rw [hcw] at hw
      rcases windowsLoop_endTime_mem l.time pts none w hw with h | h
      · exact Or.inl h
      · exact Or.inr ⟨l, rfl, h⟩
    · intro w hw
      rw [hcw] at hw
      exact windowsLoop_inside_unblocked l.time pts none hp
        (fun s hs => Option.noConfusion hs) w hw
    · intro w hw
      rw [hcw] at hw
      exact (windowsLoop_bounds l.time pts none hp hle
        (fun s hs => Option.noConfusion hs)).1 w hw
    · intro w hw
      rw [hcw] at hw
      exact (windowsLoop_bounds l.time pts none hp hle
        (fun s hs => Option.noConfusion hs)).2 w hw

/-- Witness for C2 (amended) at a two-sample day: an unblocked sample at
time 0 followed by a blocked sample at time 10 yields the single window
from 0 to 10, whose bounds the theorem certifies. -/
theorem c2_window_aggregation_witness :
    (∀ w ∈ computeSunWindows
        [{ time := 0, azimuth := 0, altitude := 10, blocked := false },
         { time := 10, azimuth := 1, altitude := 11, blocked := true }],
      w.start ≤ w.endTime) ∧
    ∀ w ∈ (computeSunWindows
        [{ time := 0, azimuth := 0, altitude := 10, blocked := false },
         { time := 10, azimuth := 1, altitude := 11, blocked := true }]).dropLast,
      w.start < w.endTime := by
  have h := c2_window_aggregation
    [{ time := 0, azimuth := 0, altitude := 10, blocked := false },
     { time := 10, azimuth := 1, altitude := 11, blocked := true }]
    (by norm_num [List.pairwise_cons])
  exact ⟨h.2.2.2.2.2.1, h.2.2.2.2.2.2⟩
